import Mathlib

/-!
Verification of the bond pricing core of `src/YTM.py`.

The core consists of `calculate_bond_price` (YTM.py:227-229), the Macaulay
duration `calculate_duration` (YTM.py:234-239), the derived quantities
`n_periods` and `coupon_payment` (YTM.py:220-221), and the yield sweep
`yields = np.linspace(min_ytm/100, max_ytm/100, num_points)` with
`prices = [calculate_bond_price(ytm) for ytm in yields]` (YTM.py:278-289).

Arithmetic is modelled over `ℚ` (exact arithmetic in place of IEEE doubles);
Python `x / 0` raising `ZeroDivisionError` is modelled separately by an
`Except`-valued variant of the pricer used for the singularity claim.
-/

namespace YTM

/-- The coupon frequency selectbox of YTM.py:148-152 offers exactly
"Annual" and "Semi-Annual". -/
inductive CouponFrequency
| Annual
| SemiAnnual
deriving DecidableEq, Repr

/-- YTM.py:213-218: `periods_per_year = 1` for "Annual", `2` for "Semi-Annual". -/
def CouponFrequency.periodsPerYear : CouponFrequency → ℕ
| .Annual => 1
| .SemiAnnual => 2

/-- The caller-supplied bond terms (spec §3 BondTerms); in YTM.py these are
`face_value`, `coupon_rate`, `coupon_frequency`, `maturity`. -/
structure BondTerms where
  faceValue : ℚ
  couponRatePercent : ℚ
  couponFrequency : CouponFrequency
  maturityYears : ℚ
deriving DecidableEq, Repr

/-- `periods_per_year` as a rational, as it is used in the divisions. -/
def BondTerms.periodsPerYear (b : BondTerms) : ℚ :=
  (b.couponFrequency.periodsPerYear : ℚ)

/-- YTM.py:220: `n_periods = int(maturity * periods_per_year)`.  Python
`int()` truncates toward zero; composed with the clamp to `ℕ` this equals
`Int.toNat` of the floor for every input, and for the data model's positive
maturities the clamp never fires. -/
def BondTerms.nPeriods (b : BondTerms) : ℕ :=
  (⌊b.maturityYears * b.periodsPerYear⌋).toNat

/-- YTM.py:221: `coupon_payment = face_value * (coupon_rate / 100) / periods_per_year`. -/
def couponPayment (b : BondTerms) : ℚ :=
  b.faceValue * (b.couponRatePercent / 100) / b.periodsPerYear

/-- The list comprehension shared by YTM.py:228 and YTM.py:235:
`[coupon_payment / (1 + yield_rate / periods_per_year) ** t for t in range(1, n_periods + 1)]`. -/
def couponPVList (b : BondTerms) (yield_rate : ℚ) : List ℚ :=
  (List.range b.nPeriods).map
    (fun i => couponPayment b / (1 + yield_rate / b.periodsPerYear) ^ (i + 1))

/-- YTM.py:227-229: `calculate_bond_price(yield_rate)`. -/
def calculate_bond_price (b : BondTerms) (yield_rate : ℚ) : ℚ :=
  (couponPVList b yield_rate).sum
    + b.faceValue / (1 + yield_rate / b.periodsPerYear) ^ b.nPeriods

/-- YTM.py:235-236: `pv_payments`, the coupon present values with the face
value present value appended as one extra element. -/
def pv_payments (b : BondTerms) (yield_rate : ℚ) : List ℚ :=
  couponPVList b yield_rate
    ++ [b.faceValue / (1 + yield_rate / b.periodsPerYear) ^ b.nPeriods]

/-- YTM.py:238: `weighted_times = [t * payment / periods_per_year for
t, payment in enumerate(pv_payments, 1)]`; `enumerate(startIndex1)` is
`List.enum` shifted by one. -/
def weighted_times (b : BondTerms) (yield_rate : ℚ) : List ℚ :=
  (pv_payments b yield_rate).enum.map
    (fun p => ((p.1 + 1 : ℕ) : ℚ) * p.2 / b.periodsPerYear)

/-- YTM.py:234-239: `calculate_duration(yield_rate)`. -/
def calculate_duration (b : BondTerms) (yield_rate : ℚ) : ℚ :=
  (weighted_times b yield_rate).sum / (pv_payments b yield_rate).sum

/-- `np.linspace a b k`: `k` evenly spaced points from `a` to `b` inclusive
(YTM.py:278).  For `k ≥ 2` the step is `(b - a) / (k - 1)`. -/
def linspace (a b : ℚ) (k : ℕ) : List ℚ :=
  (List.range k).map (fun (i : ℕ) => a + (i : ℚ) * (b - a) / ((k : ℚ) - 1))

/-- YTM.py:278-289: the swept yields `np.linspace(min_ytm/100, max_ytm/100,
num_points)`, each priced by `calculate_bond_price`, stored as the pairs
`(yields * 100, prices)`.  This total-division value model agrees with the
program only away from the per-period-rate singularity; the sweep with
Python's raising division is `generateCurve_E` below. -/
def generateCurve (b : BondTerms) (minYtmPct maxYtmPct : ℚ) (numPoints : ℕ) :
    List (ℚ × ℚ) :=
  (linspace (minYtmPct / 100) (maxYtmPct / 100) numPoints).map
    (fun y => (y * 100, calculate_bond_price b y))

/-- The message of the Python exception raised by float division by zero. -/
def zeroDivErr : String := "ZeroDivisionError"

/-- Checked division: Python float division raises on a zero divisor. -/
def divE (a d : ℚ) : Except String ℚ :=
  if d = 0 then Except.error zeroDivErr else Except.ok (a / d)

/-- The coupon sum of YTM.py:228 with every division checked, mirroring
Python semantics where each `coupon_payment / (1 + r) ** t` can raise. -/
def couponSumE (c v : ℚ) : ℕ → Except String ℚ
| 0 => Except.ok 0
| n + 1 => do
    let s ← couponSumE c v n
    let x ← divE c (v ^ (n + 1))
    return s + x

/-- YTM.py:227-229 with Python division-by-zero semantics made explicit:
the value is `calculate_bond_price` whenever no division raises. -/
def calculate_bond_price_E (b : BondTerms) (yield_rate : ℚ) :
    Except String ℚ := do
  let s ← couponSumE (couponPayment b) (1 + yield_rate / b.periodsPerYear)
    b.nPeriods
  let fv ← divE b.faceValue ((1 + yield_rate / b.periodsPerYear) ^ b.nPeriods)
  return s + fv

/-- The pricing loop of YTM.py:281-283 with Python division-by-zero
semantics: prices are appended one by one and the first raising division
aborts the sweep with no pairs produced. -/
def sweepE (b : BondTerms) : List ℚ → Except String (List (ℚ × ℚ))
| [] => Except.ok []
| y :: ys => do
    let p ← calculate_bond_price_E b y
    let rest ← sweepE b ys
    return (y * 100, p) :: rest

/-- YTM.py:278-289 with Python division-by-zero semantics made explicit:
the swept yields of `linspace`, priced in ascending order by the checked
pricer, short-circuiting at the first raising division. -/
def generateCurve_E (b : BondTerms) (minYtmPct maxYtmPct : ℚ)
    (numPoints : ℕ) : Except String (List (ℚ × ℚ)) :=
  sweepE b (linspace (minYtmPct / 100) (maxYtmPct / 100) numPoints)

/-- Modelled from the spec (§4.2): the Macaulay duration formula the spec
prescribes, in which the period-`n` cash flow is `couponPayment + faceValue`
as a single combined cash flow weighted by `n / periodsPerYear`.  Present in
the repository only as the spec's reconciliation of the duration formula;
`src/YTM.py` implements `calculate_duration` instead. -/
def durationSpec (b : BondTerms) (yield_rate : ℚ) : ℚ :=
  let n := b.nPeriods
  let cf : ℕ → ℚ := fun t =>
    if t = n then couponPayment b + b.faceValue else couponPayment b
  let pv : ℕ → ℚ := fun t => cf t / (1 + yield_rate / b.periodsPerYear) ^ t
  (((List.range n).map (fun i => ((i + 1 : ℕ) : ℚ) / b.periodsPerYear * pv (i + 1))).sum)
    / (((List.range n).map (fun i => pv (i + 1))).sum)

/-! ### Basic facts about the embedding -/

lemma periodsPerYear_pos (b : BondTerms) : 0 < b.periodsPerYear := by
  unfold BondTerms.periodsPerYear
  cases h : b.couponFrequency <;> simp [CouponFrequency.periodsPerYear]

lemma periodsPerYear_ne_zero (b : BondTerms) : b.periodsPerYear ≠ 0 :=
  ne_of_gt (periodsPerYear_pos b)

/-- A concrete bond: face 100, coupon 2%, annual, one year to maturity. -/
def termsA : BondTerms :=
  { faceValue := 100, couponRatePercent := 2,
    couponFrequency := CouponFrequency.Annual, maturityYears := 1 }

/-- A concrete bond with a fractional number of periods: maturity half a
year with annual coupons, so `n_periods = int(0.5) = 0`. -/
def termsHalf : BondTerms :=
  { faceValue := 100, couponRatePercent := 2,
    couponFrequency := CouponFrequency.Annual, maturityYears := 1 / 2 }

lemma termsA_ppy : termsA.periodsPerYear = 1 := by
  norm_num [termsA, BondTerms.periodsPerYear, CouponFrequency.periodsPerYear]

lemma termsA_nPeriods : termsA.nPeriods = 1 := by
  norm_num [BondTerms.nPeriods, termsA, BondTerms.periodsPerYear,
    CouponFrequency.periodsPerYear]

lemma termsHalf_ppy : termsHalf.periodsPerYear = 1 := by
  norm_num [termsHalf, BondTerms.periodsPerYear, CouponFrequency.periodsPerYear]

lemma termsHalf_nPeriods : termsHalf.nPeriods = 0 := by
  norm_num [BondTerms.nPeriods, termsHalf, BondTerms.periodsPerYear,
    CouponFrequency.periodsPerYear]

/-! ### C3: the present values summed inside duration are the price -/

/-- C3: PV equality invariant — for every bond terms and every yield
`y > -periodsPerYear`, the sum of the individual present values computed
inside `calculate_duration` (the denominator of the duration quotient)
equals `calculate_bond_price` at the same terms and yield. -/
theorem duration_pv_sum_eq_price (b : BondTerms) (y : ℚ)
    (_hy : -b.periodsPerYear < y) :
    (pv_payments b y).sum = calculate_bond_price b y := by
  unfold pv_payments calculate_bond_price
  simp

/-- Witness for `duration_pv_sum_eq_price` at face 100, 2% annual coupon,
one year, 5% yield. -/
theorem duration_pv_sum_eq_price_witness :
    -termsA.periodsPerYear < (1 : ℚ) / 20 ∧
      (pv_payments termsA (1 / 20)).sum = calculate_bond_price termsA (1 / 20) :=
  ⟨by rw [termsA_ppy]; norm_num,
    duration_pv_sum_eq_price termsA (1 / 20) (by rw [termsA_ppy]; norm_num)⟩

/-! ### C6: zero truncated periods price at face value -/

/-- C6: for every bond terms whose truncated period count is `0` and every
yield with `1 + y / periodsPerYear` nonzero, the price equals the face
value: the coupon sum is empty and the face value is discounted zero
periods. -/
theorem price_zero_periods_eq_face (b : BondTerms) (y : ℚ)
    (hn : b.nPeriods = 0) (_hv : 1 + y / b.periodsPerYear ≠ 0) :
    calculate_bond_price b y = b.faceValue := by
  unfold calculate_bond_price couponPVList
  rw [hn]
  simp

/-- Witness for `price_zero_periods_eq_face`: maturity half a year with
annual coupons truncates to zero periods; price at 10% yield is 100. -/
theorem price_zero_periods_eq_face_witness :
    termsHalf.nPeriods = 0 ∧ (1 : ℚ) + (1 / 10) / termsHalf.periodsPerYear ≠ 0 ∧
      calculate_bond_price termsHalf (1 / 10) = termsHalf.faceValue :=
  ⟨termsHalf_nPeriods, by rw [termsHalf_ppy]; norm_num,
    price_zero_periods_eq_face termsHalf (1 / 10) termsHalf_nPeriods
      (by rw [termsHalf_ppy]; norm_num)⟩

/-! ### C10: duration at zero truncated periods -/

/-- C10: for every bond terms with truncated period count `0` (and the data
model's positive face value) and every yield with `1 + y / periodsPerYear`
nonzero, `calculate_duration` returns `1 / periodsPerYear` and in particular
not `0`: the face-value present value is the only list element and
`enumerate(pv_payments, 1)` gives it index `1`. -/
theorem duration_zero_periods (b : BondTerms) (y : ℚ)
    (hn : b.nPeriods = 0) (hF : 0 < b.faceValue)
    (_hv : 1 + y / b.periodsPerYear ≠ 0) :
    calculate_duration b y = 1 / b.periodsPerYear ∧
      calculate_duration b y ≠ 0 := by
  have hppy := periodsPerYear_ne_zero b
  have hd : calculate_duration b y = 1 / b.periodsPerYear := by
    unfold calculate_duration weighted_times pv_payments couponPVList
    rw [hn]
    simp only [List.range_zero, List.map_nil, List.nil_append, pow_zero,
      div_one, List.enum]
    simp only [List.enumFrom, List.map_cons, List.map_nil, List.sum_cons,
      List.sum_nil, Nat.cast_ofNat, Nat.zero_add, Nat.cast_one, one_mul,
      add_zero]
    rw [div_div, mul_comm b.periodsPerYear b.faceValue, ← div_div,
      div_self (ne_of_gt hF)]
  refine ⟨hd, ?_⟩
  rw [hd]
  exact one_div_ne_zero hppy

/-- Witness for `duration_zero_periods`: half-year annual bond, 10% yield. -/
theorem duration_zero_periods_witness :
    termsHalf.nPeriods = 0 ∧ (0 : ℚ) < termsHalf.faceValue ∧
      (1 : ℚ) + (1 / 10) / termsHalf.periodsPerYear ≠ 0 ∧
      calculate_duration termsHalf (1 / 10) = 1 / termsHalf.periodsPerYear ∧
      calculate_duration termsHalf (1 / 10) ≠ 0 :=
  ⟨termsHalf_nPeriods, by norm_num [termsHalf],
    by rw [termsHalf_ppy]; norm_num,
    duration_zero_periods termsHalf (1 / 10) termsHalf_nPeriods
      (by norm_num [termsHalf]) (by rw [termsHalf_ppy]; norm_num)⟩

/-! ### C4: pricing at par -/

/-- The closed form of the coupon present-value sum: for `1 + r ≠ 0`,
`Σ_{t=1..n} r / (1+r)^t = 1 - 1 / (1+r)^n`. -/
lemma rate_pv_sum (r : ℚ) (h : 1 + r ≠ 0) (n : ℕ) :
    ((List.range n).map (fun i => r / (1 + r) ^ (i + 1))).sum
      = 1 - 1 / (1 + r) ^ n := by
  induction n with
  | zero => simp
  | succ n ih =>
    rw [List.range_succ, List.map_append, List.sum_append, ih]
    have hp : (1 + r) ^ n ≠ 0 := pow_ne_zero _ h
    simp only [List.map_cons, List.map_nil, List.sum_cons, List.sum_nil,
      add_zero]
    field_simp
    ring

/-- C4: par property — when `couponRatePercent / 100` equals the annual
yield (with the data model's nonnegative coupon rate, same compounding
convention), the price is the face value. -/
theorem par_price_eq_face (b : BondTerms) (hc : 0 ≤ b.couponRatePercent) :
    calculate_bond_price b (b.couponRatePercent / 100) = b.faceValue := by
  have hppy := periodsPerYear_pos b
  set r : ℚ := (b.couponRatePercent / 100) / b.periodsPerYear with hr
  have hr0 : 0 ≤ r := div_nonneg (div_nonneg hc (by norm_num)) hppy.le
  have h1r : 1 + r ≠ 0 := by linarith
  have hC : couponPayment b = b.faceValue * r := by
    unfold couponPayment
    rw [hr]
    ring
  unfold calculate_bond_price couponPVList
  rw [← hr, hC]
  have hmap :
      (fun i => b.faceValue * r / (1 + r) ^ (i + 1))
        = fun i : ℕ => b.faceValue * (r / (1 + r) ^ (i + 1)) := by
    funext i
    ring
  rw [hmap, List.sum_map_mul_left, rate_pv_sum r h1r]
  have hp : (1 + r) ^ b.nPeriods ≠ 0 := pow_ne_zero _ h1r
  field_simp
  ring

/-- Witness for `par_price_eq_face`: the 2% annual one-year bond priced at
a 2% annual yield is worth its face value. -/
theorem par_price_eq_face_witness :
    (0 : ℚ) ≤ termsA.couponRatePercent ∧
      calculate_bond_price termsA (termsA.couponRatePercent / 100)
        = termsA.faceValue :=
  ⟨by norm_num [termsA], par_price_eq_face termsA (by norm_num [termsA])⟩

/-! ### C1, C2: the duration weights the face value at period `n + 1` -/

lemma pv_payments_termsA_eval :
    pv_payments termsA (1 / 20) = [40 / 21, 2000 / 21] := by
  unfold pv_payments couponPVList couponPayment
  rw [termsA_nPeriods, termsA_ppy]
  norm_num [List.range_succ, termsA]

lemma duration_termsA_eval :
    calculate_duration termsA (1 / 20) = 101 / 51 := by
  unfold calculate_duration weighted_times
  rw [pv_payments_termsA_eval, termsA_ppy]
  norm_num [List.enum, List.enumFrom]

lemma durationSpec_termsA_eval : durationSpec termsA (1 / 20) = 1 := by
  unfold durationSpec
  rw [termsA_nPeriods, termsA_ppy]
  norm_num [List.range_succ, couponPayment, termsA, BondTerms.periodsPerYear,
    CouponFrequency.periodsPerYear]

/-- C1: at face 100, 2% annual coupon, one year to maturity, 5% yield, the
code's `calculate_duration` returns `101/51` while the claimed formula
(face value inside the final period's cash flow, weighted `n`) gives `1`:
`enumerate(pv_payments, 1)` hands the appended face-value present value the
weight `n + 1`, so the claim fails on the code. -/
theorem duration_face_weight_bug :
    calculate_duration termsA (1 / 20) = 101 / 51 ∧
      durationSpec termsA (1 / 20) = 1 ∧
      calculate_duration termsA (1 / 20) ≠ durationSpec termsA (1 / 20) := by
  refine ⟨duration_termsA_eval, durationSpec_termsA_eval, ?_⟩
  rw [duration_termsA_eval, durationSpec_termsA_eval]
  norm_num

/-- C2: the coupon-bearing bond with face 100, 2% annual coupon, one year
to maturity, priced at the in-domain yield 5%, has `calculate_duration`
equal to `101/51 ≈ 1.98`, strictly above its maturity of one year — the
code violates the duration-at-most-maturity bound. -/
theorem duration_exceeds_maturity_bug :
    0 < termsA.couponRatePercent ∧ termsA.nPeriods = 1 ∧
      -termsA.periodsPerYear < (1 : ℚ) / 20 ∧
      termsA.maturityYears < calculate_duration termsA (1 / 20) := by
  refine ⟨by norm_num [termsA], termsA_nPeriods,
    by rw [termsA_ppy]; norm_num, ?_⟩
  rw [duration_termsA_eval]
  norm_num [termsA]

/-! ### C5: monotonicity of the price in the yield -/

lemma price_termsHalf_eval (y : ℚ) : calculate_bond_price termsHalf y = 100 := by
  unfold calculate_bond_price couponPVList
  rw [termsHalf_nPeriods]
  simp [termsHalf]

/-- C5 counterexample: the valid bond terms with maturity half a year and
annual coupons truncate to zero periods, so the price is the constant 100:
at the in-domain yields 1% < 2% the price does not strictly decrease. -/
theorem price_not_strict_anti_zero_periods :
    (1 : ℚ) / 100 < 2 / 100 ∧ -termsHalf.periodsPerYear < (1 : ℚ) / 100 ∧
      -termsHalf.periodsPerYear < (2 : ℚ) / 100 ∧
      ¬ calculate_bond_price termsHalf (2 / 100)
          < calculate_bond_price termsHalf (1 / 100) := by
  refine ⟨by norm_num, by rw [termsHalf_ppy]; norm_num,
    by rw [termsHalf_ppy]; norm_num, ?_⟩
  rw [price_termsHalf_eval, price_termsHalf_eval]
  exact lt_irrefl 100

/-- C5 amended: for every bond terms with positive face value, nonnegative
coupon rate, and at least one truncated period, the price is strictly
decreasing in the annual yield over the domain `annualYield > -periodsPerYear`. -/
theorem price_strict_anti_pos_periods (b : BondTerms) (y₁ y₂ : ℚ)
    (hF : 0 < b.faceValue) (hc : 0 ≤ b.couponRatePercent)
    (hn : 1 ≤ b.nPeriods) (hdom : -b.periodsPerYear < y₁) (hlt : y₁ < y₂) :
    calculate_bond_price b y₂ < calculate_bond_price b y₁ := by
  have hppy := periodsPerYear_pos b
  set v₁ : ℚ := 1 + y₁ / b.periodsPerYear with hv₁def
  set v₂ : ℚ := 1 + y₂ / b.periodsPerYear with hv₂def
  have hv₁ : 0 < v₁ := by
    have h : -1 < y₁ / b.periodsPerYear := by
      rw [lt_div_iff₀ hppy]
      linarith
    rw [hv₁def]
    linarith
  have hv₁₂ : v₁ < v₂ := by
    have h : y₁ / b.periodsPerYear < y₂ / b.periodsPerYear :=
      (div_lt_div_iff_of_pos_right hppy).mpr hlt
    rw [hv₁def, hv₂def]
    linarith
  have hC : 0 ≤ couponPayment b := by
    unfold couponPayment
    exact div_nonneg (mul_nonneg hF.le (div_nonneg hc (by norm_num))) hppy.le
  have hsum : (couponPVList b y₂).sum ≤ (couponPVList b y₁).sum := by
    unfold couponPVList
    rw [← hv₁def, ← hv₂def]
    apply List.sum_le_sum
    intro i _
    exact div_le_div_of_nonneg_left hC (pow_pos hv₁ _)
      (pow_le_pow_left₀ hv₁.le hv₁₂.le _)
  have hface : b.faceValue / v₂ ^ b.nPeriods < b.faceValue / v₁ ^ b.nPeriods :=
    div_lt_div_of_pos_left hF (pow_pos hv₁ _)
      (pow_lt_pow_left₀ hv₁₂ hv₁.le (by omega))
  unfold calculate_bond_price
  rw [← hv₁def, ← hv₂def]
  exact add_lt_add_of_le_of_lt hsum hface

/-- Witness for `price_strict_anti_pos_periods`: the one-period bond
`termsA` is strictly cheaper at a 6% yield than at a 5% yield. -/
theorem price_strict_anti_pos_periods_witness :
    (0 : ℚ) < termsA.faceValue ∧ (0 : ℚ) ≤ termsA.couponRatePercent ∧
      1 ≤ termsA.nPeriods ∧ -termsA.periodsPerYear < (1 : ℚ) / 20 ∧
      (1 : ℚ) / 20 < 3 / 50 ∧
      calculate_bond_price termsA (3 / 50) < calculate_bond_price termsA (1 / 20) :=
  ⟨by norm_num [termsA], by norm_num [termsA], by rw [termsA_nPeriods],
    by rw [termsA_ppy]; norm_num, by norm_num,
    price_strict_anti_pos_periods termsA (1 / 20) (3 / 50)
      (by norm_num [termsA]) (by norm_num [termsA]) (by rw [termsA_nPeriods])
      (by rw [termsA_ppy]; norm_num) (by norm_num)⟩

/-! ### C8: no input validation in the code -/

/-- C8: the code performs no range validation — sweeping the degenerate
yield range `min = max = 5` with three points silently produces three
identical `(5, price)` pairs instead of any typed failure; the source has
no DomainError, InvalidRangeError or InvalidTermsError anywhere. -/
theorem curve_accepts_degenerate_range :
    generateCurve termsA 5 5 3
      = [(5, calculate_bond_price termsA (1 / 20)),
         (5, calculate_bond_price termsA (1 / 20)),
         (5, calculate_bond_price termsA (1 / 20))] := by
  unfold generateCurve linspace
  norm_num [List.range_succ]

/-! ### C9: pricing at the singular yield raises -/

lemma couponSumE_err (c : ℚ) : ∀ m : ℕ,
    couponSumE c 0 (m + 1) = Except.error zeroDivErr := by
  intro m
  induction m with
  | zero =>
    simp only [couponSumE, divE, pow_one, if_pos rfl]
    rfl
  | succ m ih =>
    unfold couponSumE
    rw [ih]
    rfl

/-- C9: for every bond terms with at least one period, pricing at the
annual yield `-periodsPerYear` (per-period rate `-1`, discount base `0`)
raises the division-by-zero failure in the checked model of the Python
arithmetic: the result is an error, never a silently returned number. -/
theorem price_singularity_errors (b : BondTerms) (hn : 1 ≤ b.nPeriods) :
    calculate_bond_price_E b (-b.periodsPerYear) = Except.error zeroDivErr := by
  have hv : 1 + -b.periodsPerYear / b.periodsPerYear = 0 := by
    rw [neg_div, div_self (periodsPerYear_ne_zero b)]
    ring
  unfold calculate_bond_price_E
  rw [hv]
  obtain ⟨m, hm⟩ : ∃ m, b.nPeriods = m + 1 := ⟨b.nPeriods - 1, by omega⟩
  rw [hm, couponSumE_err]
  rfl

/-- Witness for `price_singularity_errors`: the one-period annual bond
priced at annual yield `-1` errors out. -/
theorem price_singularity_errors_witness :
    1 ≤ termsA.nPeriods ∧
      calculate_bond_price_E termsA (-termsA.periodsPerYear)
        = Except.error zeroDivErr :=
  ⟨by rw [termsA_nPeriods],
    price_singularity_errors termsA (by rw [termsA_nPeriods])⟩

/-! ### C7: the yield sweep -/

lemma couponSumE_ok (c v : ℚ) (hv : v ≠ 0) : ∀ n : ℕ,
    couponSumE c v n
      = Except.ok (((List.range n).map (fun i => c / v ^ (i + 1))).sum) := by
  intro n
  induction n with
  | zero => rfl
  | succ n ih =>
    have hp : v ^ (n + 1) ≠ 0 := pow_ne_zero _ hv
    unfold couponSumE
    rw [ih, List.range_succ, List.map_append, List.sum_append]
    simp only [divE, if_neg hp, List.map_cons, List.map_nil, List.sum_cons,
      List.sum_nil, add_zero]
    rfl

/-- Away from the singular discount base the checked pricer returns the
total-division pricer's value. -/
lemma calculate_bond_price_E_ok (b : BondTerms) (y : ℚ)
    (hv : 1 + y / b.periodsPerYear ≠ 0) :
    calculate_bond_price_E b y = Except.ok (calculate_bond_price b y) := by
  have hp : (1 + y / b.periodsPerYear) ^ b.nPeriods ≠ 0 := pow_ne_zero _ hv
  unfold calculate_bond_price_E
  rw [couponSumE_ok _ _ hv]
  simp only [divE, if_neg hp]
  rfl

/-- When no swept yield hits the singular discount base, the checked loop
returns exactly the total-division pairs. -/
lemma sweepE_ok (b : BondTerms) : ∀ l : List ℚ,
    (∀ y ∈ l, 1 + y / b.periodsPerYear ≠ 0) →
      sweepE b l
        = Except.ok (l.map (fun y => (y * 100, calculate_bond_price b y))) := by
  intro l
  induction l with
  | nil => intro _; rfl
  | cons a l ih =>
    intro h
    unfold sweepE
    rw [calculate_bond_price_E_ok b a (h a (by simp)),
      ih (fun y hy => h y (by simp [hy]))]
    rfl

lemma nonneg_yield_off_pole (b : BondTerms) (y : ℚ) (hy : 0 ≤ y) :
    1 + y / b.periodsPerYear ≠ 0 := by
  have h := div_nonneg hy (periodsPerYear_pos b).le
  exact ne_of_gt (by linarith)

lemma linspace_pole_eval :
    linspace (-200 / 100) (0 / 100) 3 = [-2, -1, 0] := by
  norm_num [linspace, List.range_succ]

lemma price_E_termsA_neg_one :
    calculate_bond_price_E termsA (-1) = Except.error zeroDivErr := by
  have hv : 1 + (-1 : ℚ) / termsA.periodsPerYear = 0 := by
    rw [termsA_ppy]
    norm_num
  unfold calculate_bond_price_E
  rw [hv, termsA_nPeriods, couponSumE_err]
  rfl

/-- C7 counterexample: the in-domain sweep `min = -200`, `max = 0`,
`numPoints = 3` puts the grid yield `-100` (per-period rate `-1`) in the
loop, whose pricing division raises: the faithful checked sweep aborts
with a division-by-zero failure and produces no pairs at all, so the
sweep does not produce `numPoints` priced pairs as claimed. -/
theorem curve_sweep_pole_error :
    (-200 : ℚ) < 0 ∧ (2 : ℕ) ≤ 3 ∧
      generateCurve_E termsA (-200) 0 3 = Except.error zeroDivErr := by
  refine ⟨by norm_num, by norm_num, ?_⟩
  unfold generateCurve_E
  rw [linspace_pole_eval]
  have hinner : sweepE termsA [-1, 0] = Except.error zeroDivErr := by
    unfold sweepE
    rw [price_E_termsA_neg_one]
    rfl
  unfold sweepE
  rw [calculate_bond_price_E_ok termsA (-2) (by rw [termsA_ppy]; norm_num),
    hinner]
  rfl

lemma generateCurve_getElem (b : BondTerms) (minPct maxPct : ℚ) (k i : ℕ)
    (hi : i < k) :
    (generateCurve b minPct maxPct k)[i]?
      = some (minPct + (i : ℚ) * (maxPct - minPct) / ((k : ℚ) - 1),
          calculate_bond_price b
            ((minPct + (i : ℚ) * (maxPct - minPct) / ((k : ℚ) - 1)) / 100)) := by
  unfold generateCurve linspace
  rw [List.map_map, List.getElem?_map, List.getElem?_range hi]
  simp only [Option.map_some', Function.comp_apply]
  have harg : minPct / 100 + (i : ℚ) * (maxPct / 100 - minPct / 100) / ((k : ℚ) - 1)
      = (minPct + (i : ℚ) * (maxPct - minPct) / ((k : ℚ) - 1)) / 100 := by
    ring
  rw [harg]
  congr 1
  rw [Prod.mk.injEq]
  exact ⟨by ring, rfl⟩

lemma generateCurve_yields (b : BondTerms) (minPct maxPct : ℚ) (k : ℕ) :
    (generateCurve b minPct maxPct k).map Prod.fst
      = (List.range k).map
          (fun (i : ℕ) => minPct + (i : ℚ) * (maxPct - minPct) / ((k : ℚ) - 1)) := by
  unfold generateCurve linspace
  rw [List.map_map, List.map_map]
  apply List.map_congr_left
  intro i _
  simp only [Function.comp_apply]
  ring

/-- C7 amended: for every bond terms, yield range with `min < max`, and
point count `k ≥ 2` whose swept grid avoids the per-period-rate
singularity (no grid yield with discount base `1 + y / periodsPerYear`
zero), the checked sweep succeeds, returning exactly the total-division
pairs; that curve has exactly `k` pairs; the pair at index `i` has yield
`min + i * (max - min) / (k - 1)` (linear spacing) and carries the
pricer's output at that yield; the first yield is `min`, the last is
`max`, and the yields are strictly ascending.  Concretely, `min = 0.1`,
`max = 15`, `k = 3` sweeps without error and yields `[0.1, 7.55, 15]`. -/
theorem generateCurve_spec (b : BondTerms) (minPct maxPct : ℚ) (k : ℕ)
    (hlt : minPct < maxPct) (hk : 2 ≤ k)
    (hpole : ∀ y ∈ linspace (minPct / 100) (maxPct / 100) k,
      1 + y / b.periodsPerYear ≠ 0) :
    generateCurve_E b minPct maxPct k
        = Except.ok (generateCurve b minPct maxPct k) ∧
      (generateCurve b minPct maxPct k).length = k ∧
      (∀ i, i < k →
        (generateCurve b minPct maxPct k)[i]?
          = some (minPct + (i : ℚ) * (maxPct - minPct) / ((k : ℚ) - 1),
              calculate_bond_price b
                ((minPct + (i : ℚ) * (maxPct - minPct) / ((k : ℚ) - 1)) / 100))) ∧
      ((generateCurve b minPct maxPct k).map Prod.fst)[0]? = some minPct ∧
      ((generateCurve b minPct maxPct k).map Prod.fst)[k - 1]? = some maxPct ∧
      ((generateCurve b minPct maxPct k).map Prod.fst).Pairwise (· < ·) ∧
      generateCurve_E b (1 / 10) 15 3
        = Except.ok (generateCurve b (1 / 10) 15 3) ∧
      (generateCurve b (1 / 10) 15 3).map Prod.fst = [1 / 10, 151 / 20, 15] := by
  have hk2 : (2 : ℚ) ≤ (k : ℚ) := by exact_mod_cast hk
  have hd0 : (0 : ℚ) < (k : ℚ) - 1 := by linarith
  have hlen : (generateCurve b minPct maxPct k).length = k := by
    unfold generateCurve linspace
    simp
  have hok : generateCurve_E b minPct maxPct k
      = Except.ok (generateCurve b minPct maxPct k) := by
    unfold generateCurve_E generateCurve
    exact sweepE_ok b _ hpole
  have hconc : generateCurve_E b (1 / 10) 15 3
      = Except.ok (generateCurve b (1 / 10) 15 3) := by
    unfold generateCurve_E generateCurve
    apply sweepE_ok
    intro y hy
    apply nonneg_yield_off_pole
    norm_num [linspace, List.range_succ] at hy
    rcases hy with hy | hy | hy <;> rw [hy] <;> norm_num
  refine ⟨hok, hlen, fun i hi => generateCurve_getElem b minPct maxPct k i hi,
    ?_, ?_, ?_, hconc, ?_⟩
  · rw [generateCurve_yields, List.getElem?_map,
      List.getElem?_range (by omega : 0 < k)]
    simp
  · rw [generateCurve_yields, List.getElem?_map,
      List.getElem?_range (by omega : k - 1 < k)]
    have hcast : ((k - 1 : ℕ) : ℚ) = (k : ℚ) - 1 := by
      rw [Nat.cast_sub (by omega)]
      norm_num
    simp only [Option.map_some']
    rw [hcast, mul_div_assoc, mul_comm, div_mul_cancel₀ _ (ne_of_gt hd0)]
    congr 1
    ring
  · rw [generateCurve_yields, List.pairwise_map]
    have hstep : (0 : ℚ) < (maxPct - minPct) / ((k : ℚ) - 1) :=
      div_pos (by linarith) hd0
    refine (List.pairwise_lt_range k).imp ?_
    intro i j hij
    have hcast : (i : ℚ) < (j : ℚ) := by exact_mod_cast hij
    rw [mul_div_assoc, mul_div_assoc]
    exact add_lt_add_left (mul_lt_mul_of_pos_right hcast hstep) minPct
  · rw [generateCurve_yields]
    norm_num [List.range_succ]

/-- Witness for `generateCurve_spec`: a two-point sweep from 1 to 2 over
the one-period annual bond stays off the singularity, succeeds, and has
exactly two points. -/
theorem generateCurve_spec_witness :
    (1 : ℚ) < 2 ∧ 2 ≤ 2 ∧
      (∀ y ∈ linspace ((1 : ℚ) / 100) (2 / 100) 2,
        1 + y / termsA.periodsPerYear ≠ 0) ∧
      generateCurve_E termsA 1 2 2 = Except.ok (generateCurve termsA 1 2 2) ∧
      (generateCurve termsA 1 2 2).length = 2 := by
  have hpole : ∀ y ∈ linspace ((1 : ℚ) / 100) (2 / 100) 2,
      1 + y / termsA.periodsPerYear ≠ 0 := by
    intro y hy
    apply nonneg_yield_off_pole
    norm_num [linspace, List.range_succ] at hy
    rcases hy with hy | hy <;> rw [hy] <;> norm_num
  have h := generateCurve_spec termsA 1 2 2 (by norm_num) (by norm_num) hpole
  exact ⟨by norm_num, by norm_num, hpole, h.1, h.2.1⟩

end YTM
